import Mathlib

/-!
Verification of the netdi dependency-injection container.

This file shallowly embeds the resolution engine (`ServiceProvider` in
`src/serviceProvider.ts`) and the registry builder (`ServiceCollection` in
`src/serviceCollection.ts`).

Modelling choices, all taken from the source:
  * A `ServiceIdentifier` is an opaque token compared by identity; we model it
    as a `Nat`.
  * Object instances are compared by reference identity only, so an instance
    is modelled as a `Nat` drawn from a monotonically increasing allocation
    counter (`World.counter`); `new ctor(...)` allocates a fresh number.
  * The TypeScript `Map` is modelled as an insertion-ordered association list
    with `Map.get`/`Map.set` semantics (`getEntry`/`setEntry`).
  * The descriptor registry `Map` is shared by reference between the
    `ServiceCollection` and every provider built from it, and between a
    provider and the scopes it creates.  We model this one shared map as a
    field of `World`, which is threaded through every operation, while each
    engine's two caches are private fields of `Engine` (in the source each
    provider allocates its own two cache `Map`s and the parent's singleton
    entries are copied value-wise, never aliased).
  * The implementation class of a descriptor matters to the engine only
    through the ordered list of constructor-dependency identifiers that the
    external Dependency Metadata Provider reports for it
    (`Reflect.getMetadata('design:paramtypes', ...)`, with a missing entry
    meaning zero dependencies); we therefore represent `implementationType`
    by that list.
  * A factory is arbitrary client code `(provider) => instance`; we represent
    the behaviours relevant to the engine: resolving some services on the
    provider and then returning a freshly created object (`FactorySpec.make`),
    or throwing (`FactorySpec.throwErr`).
  * TypeScript exceptions become an `Except` value that still carries the
    states mutated so far, since a thrown error does not roll back `Map`
    mutations.  Unbounded recursion (the source recurses without a cycle
    guard and overflows the stack on circular graphs) is modelled by a fuel
    parameter; exhaustion yields the distinguished error `outOfFuel`.
-/

namespace Netdi

abbrev ServiceId := Nat

abbrev Instance := Nat

/-- Errors thrown by the engine: `getService` on an unregistered identifier
(`Service of type ... is not registered.`), an unrecognized lifetime tag
(`Unknown service lifetime: ...`), an exception escaping client factory code,
and stack exhaustion from unbounded recursion (modelled via fuel). -/
inductive DIError where
  | serviceNotRegistered (id : ServiceId)
  | unknownLifetime (tag : String)
  | clientError
  | outOfFuel
deriving Repr, DecidableEq

/-- Behaviour of a client-supplied factory `(provider) => instance`: resolve
the given services on the provider, then return a newly created object; or
throw. -/
inductive FactorySpec where
  | make (deps : List ServiceId)
  | throwErr
deriving Repr, DecidableEq

/-- `ServiceDescriptor` from `src/types.ts`: identifier, implementation class
(represented by its ordered constructor-dependency identifiers), lifetime tag
(a plain string in the source, so any tag is representable), and an optional
factory. -/
structure ServiceDescriptor where
  serviceType : ServiceId
  implementationType : List ServiceId
  lifetime : String
  factory : Option FactorySpec
deriving Repr, DecidableEq

/-- `Map.get`: first entry with the given key, if any. -/
def getEntry {α : Type} : List (ServiceId × α) → ServiceId → Option α
  | [], _ => none
  | (k', v') :: rest, k => if k' = k then some v' else getEntry rest k

/-- `Map.set`: update the existing entry in place (keeping its position in
iteration order) or append a new one. -/
def setEntry {α : Type} : List (ServiceId × α) → ServiceId → α → List (ServiceId × α)
  | [], k, v => [(k, v)]
  | (k', v') :: rest, k, v =>
    if k' = k then (k, v) :: rest else (k', v') :: setEntry rest k v

/-- The state shared by reference across the whole provider family: the
descriptor registry `Map` (one `ServiceCollection`'s `_descriptors`, handed by
reference to `build()` and to every scope) and the allocation counter that
models object identity of `new`-created instances. -/
structure World where
  registry : List (ServiceId × ServiceDescriptor)
  counter : Nat
deriving Repr, DecidableEq

/-- The per-provider state of a resolution engine: its own singleton-instance
cache and scoped-instance cache (each provider allocates fresh `Map`s; the
parent's singleton entries are copied in value-wise). -/
structure Engine where
  singletonInstances : List (ServiceId × Instance)
  scopedInstances : List (ServiceId × Instance)
deriving Repr, DecidableEq

deriving instance DecidableEq for Except

/-- Result of running an engine operation: the final shared state, the final
engine state, and either a value or the error thrown (mutations performed
before a throw are not rolled back). -/
structure Res (α : Type) where
  world : World
  engine : Engine
  out : Except DIError α
deriving Repr, DecidableEq

mutual

/-- `ServiceProvider.getService`: look the identifier up in the registry,
throw `serviceNotRegistered` if absent, otherwise resolve the descriptor. -/
def getService (fuel : Nat) (w : World) (e : Engine) (id : ServiceId) : Res Instance :=
  match fuel with
  | 0 => ⟨w, e, .error .outOfFuel⟩
  | fuel' + 1 =>
    match getEntry w.registry id with
    | none => ⟨w, e, .error (.serviceNotRegistered id)⟩
    | some d => resolveService fuel' w e d

/-- `ServiceProvider.resolveService`: dispatch on the descriptor's lifetime
tag — singleton and scoped check then fill their respective cache, transient
always constructs, anything else throws `unknownLifetime`. -/
def resolveService (fuel : Nat) (w : World) (e : Engine) (d : ServiceDescriptor) : Res Instance :=
  match fuel with
  | 0 => ⟨w, e, .error .outOfFuel⟩
  | fuel' + 1 =>
    if d.lifetime = "singleton" then
      match getEntry e.singletonInstances d.serviceType with
      | some inst => ⟨w, e, .ok inst⟩
      | none =>
        match constructInstance fuel' w e d with
        | ⟨w', e', .ok inst⟩ =>
          ⟨w', { e' with singletonInstances := setEntry e'.singletonInstances d.serviceType inst },
            .ok inst⟩
        | ⟨w', e', .error err⟩ => ⟨w', e', .error err⟩
    else if d.lifetime = "scoped" then
      match getEntry e.scopedInstances d.serviceType with
      | some inst => ⟨w, e, .ok inst⟩
      | none =>
        match constructInstance fuel' w e d with
        | ⟨w', e', .ok inst⟩ =>
          ⟨w', { e' with scopedInstances := setEntry e'.scopedInstances d.serviceType inst },
            .ok inst⟩
        | ⟨w', e', .error err⟩ => ⟨w', e', .error err⟩
    else if d.lifetime = "transient" then
      constructInstance fuel' w e d
    else
      ⟨w, e, .error (.unknownLifetime d.lifetime)⟩

/-- The construction step `factory ? factory(this) : this.createInstance(implementationType)`
shared by all three lifetime branches. -/
def constructInstance (fuel : Nat) (w : World) (e : Engine) (d : ServiceDescriptor) : Res Instance :=
  match fuel with
  | 0 => ⟨w, e, .error .outOfFuel⟩
  | fuel' + 1 =>
    match d.factory with
    | some (.make deps) => createInstance fuel' w e deps
    | some .throwErr => ⟨w, e, .error .clientError⟩
    | none => createInstance fuel' w e d.implementationType

/-- `ServiceProvider.createInstance`: resolve each constructor-dependency
identifier via `getService` on this engine (left to right), then invoke the
constructor, i.e. allocate a fresh object. -/
def createInstance (fuel : Nat) (w : World) (e : Engine) (deps : List ServiceId) : Res Instance :=
  match fuel with
  | 0 => ⟨w, e, .error .outOfFuel⟩
  | fuel' + 1 =>
    match resolveParams fuel' w e deps with
    | ⟨w', e', .ok _⟩ => ⟨{ w' with counter := w'.counter + 1 }, e', .ok w'.counter⟩
    | ⟨w', e', .error err⟩ => ⟨w', e', .error err⟩

/-- The `paramTypes.map((_, index) => this.getService(...))` loop: resolve the
dependency identifiers in order, stopping at the first thrown error. -/
def resolveParams (fuel : Nat) (w : World) (e : Engine) (deps : List ServiceId) :
    Res (List Instance) :=
  match fuel with
  | 0 => ⟨w, e, .error .outOfFuel⟩
  | fuel' + 1 =>
    match deps with
    | [] => ⟨w, e, .ok []⟩
    | id :: rest =>
      match getService fuel' w e id with
      | ⟨w', e', .ok v⟩ =>
        match resolveParams fuel' w' e' rest with
        | ⟨w'', e'', .ok vs⟩ => ⟨w'', e'', .ok (v :: vs)⟩
        | ⟨w'', e'', .error err⟩ => ⟨w'', e'', .error err⟩
      | ⟨w', e', .error err⟩ => ⟨w', e', .error err⟩

end

/-- The `for (const descriptor of descriptors.values())` loop of the
`ServiceProvider` constructor: resolve every descriptor whose lifetime is
`singleton`, in registry iteration order, ignoring the returned instance; a
thrown error aborts the loop (the constructor throws). -/
def preResolveSingletons (fuel : Nat) (w : World) (e : Engine)
    (ds : List (ServiceId × ServiceDescriptor)) : Res Unit :=
  match ds with
  | [] => ⟨w, e, .ok ()⟩
  | (_, d) :: rest =>
    if d.lifetime = "singleton" then
      match resolveService fuel w e d with
      | ⟨w', e', .ok _⟩ => preResolveSingletons fuel w' e' rest
      | ⟨w', e', .error err⟩ => ⟨w', e', .error err⟩
    else preResolveSingletons fuel w e rest

/-- The `ServiceProvider` constructor: start with a fresh scoped cache and a
singleton cache that copies the parent's entries value-wise (empty when there
is no parent), then eagerly pre-resolve all singleton descriptors.  On a
thrown error the half-built provider is discarded but effects on the shared
state (allocation, registry) persist. -/
def mkProvider (fuel : Nat) (w : World) (parent : Option Engine) :
    World × Except DIError Engine :=
  let e0 : Engine :=
    { singletonInstances :=
        match parent with
        | some p => p.singletonInstances
        | none => []
      scopedInstances := [] }
  match preResolveSingletons fuel w e0 w.registry with
  | ⟨w', e', .ok _⟩ => (w', .ok e')
  | ⟨w', _, .error err⟩ => (w', .error err)

/-- `ServiceProvider.createScope`: a new provider over the same registry with
this provider as parent (the `ServiceScope` wrapper adds nothing beyond
exposing the child provider and delegating `dispose`, so a scope is modelled
by its engine). -/
def createScope (fuel : Nat) (w : World) (e : Engine) : World × Except DIError Engine :=
  mkProvider fuel w (some e)

/-- `ServiceProvider.dispose`: clear this provider's scoped cache only. -/
def dispose (e : Engine) : Engine :=
  { e with scopedInstances := [] }

/-- A `ServiceCollection` with no registrations yet, in a fresh heap. -/
def emptyWorld : World :=
  ⟨[], 0⟩

/-- `ServiceCollection.add`: store the descriptor in the registry `Map` under
its identifier (last registration wins, silently). -/
def addService (w : World) (d : ServiceDescriptor) : World :=
  { w with registry := setEntry w.registry d.serviceType d }

/-- `ServiceCollection.addSingleton` with an implementation class whose
constructor requires `impl`. -/
def addSingleton (w : World) (id : ServiceId) (impl : List ServiceId) : World :=
  addService w ⟨id, impl, "singleton", none⟩

/-- `ServiceCollection.addScoped` with an implementation class. -/
def addScoped (w : World) (id : ServiceId) (impl : List ServiceId) : World :=
  addService w ⟨id, impl, "scoped", none⟩

/-- `ServiceCollection.addTransient` with an implementation class. -/
def addTransient (w : World) (id : ServiceId) (impl : List ServiceId) : World :=
  addService w ⟨id, impl, "transient", none⟩

/-- `ServiceCollection.build`: hand the accumulated registry (by reference —
`World` is threaded, not copied) to a new root provider. -/
def build (fuel : Nat) (w : World) : World × Except DIError Engine :=
  mkProvider fuel w none

end Netdi

namespace Netdi

/-! ### Association-list (`Map`) lemmas -/

theorem getEntry_setEntry_self {α : Type} (m : List (ServiceId × α)) (k : ServiceId) (v : α) :
    getEntry (setEntry m k v) k = some v := by
  induction m with
  | nil => simp [getEntry, setEntry]
  | cons p rest ih =>
    obtain ⟨k', v'⟩ := p
    by_cases h : k' = k
    · simp [getEntry, setEntry, h]
    · simp [getEntry, setEntry, h, ih]

theorem getEntry_setEntry_ne {α : Type} (m : List (ServiceId × α)) (k k' : ServiceId) (v : α)
    (h : k' ≠ k) : getEntry (setEntry m k v) k' = getEntry m k' := by
  have h' : ¬(k = k') := fun hh => h hh.symm
  induction m with
  | nil => simp [getEntry, setEntry, h']
  | cons p rest ih =>
    obtain ⟨k0, v0⟩ := p
    by_cases h0 : k0 = k
    · subst h0
      simp [getEntry, setEntry, h']
    · by_cases h1 : k0 = k'
      · simp [getEntry, setEntry, h0, h1, h]
      · simp [getEntry, setEntry, h0, h1, ih]

/-- Unfolding equation for `resolveParams` on a nonempty dependency list. -/
theorem resolveParams_cons (n : Nat) (w : World) (e : Engine) (id : ServiceId)
    (rest : List ServiceId) :
    resolveParams (n + 1) w e (id :: rest) =
      match getService n w e id with
      | ⟨w', e', .ok v⟩ =>
        match resolveParams n w' e' rest with
        | ⟨w'', e'', .ok vs⟩ => ⟨w'', e'', .ok (v :: vs)⟩
        | ⟨w'', e'', .error err⟩ => ⟨w'', e'', .error err⟩
      | ⟨w', e', .error err⟩ => ⟨w', e', .error err⟩ := rfl

/-! ### A generic small-step simulation over the resolution functions

Every state change the engine performs is one of: allocating a fresh
instance (bumping the counter), writing one singleton-cache entry, or
writing one scoped-cache entry.  Any pre/post relation closed under these
three steps (and reflexive and transitive) is preserved by every resolution
function; instantiating it gives registry invariance and counter
monotonicity. -/

/-- A relation between pre- and post-states closed under the three primitive
state changes of the engine. -/
structure StepClosed (P : World → Engine → World → Engine → Prop) : Prop where
  refl : ∀ w e, P w e w e
  trans : ∀ {w1 e1 w2 e2 w3 e3}, P w1 e1 w2 e2 → P w2 e2 w3 e3 → P w1 e1 w3 e3
  alloc : ∀ w e, P w e { w with counter := w.counter + 1 } e
  setSing : ∀ w e k v, P w e w { e with singletonInstances := setEntry e.singletonInstances k v }
  setSco : ∀ w e k v, P w e w { e with scopedInstances := setEntry e.scopedInstances k v }

theorem sim_all {P : World → Engine → World → Engine → Prop} (hP : StepClosed P) :
    ∀ fuel : Nat,
      (∀ w e id, P w e (getService fuel w e id).world (getService fuel w e id).engine) ∧
      (∀ w e d, P w e (resolveService fuel w e d).world (resolveService fuel w e d).engine) ∧
      (∀ w e d, P w e (constructInstance fuel w e d).world (constructInstance fuel w e d).engine) ∧
      (∀ w e deps, P w e (createInstance fuel w e deps).world (createInstance fuel w e deps).engine) ∧
      (∀ w e deps, P w e (resolveParams fuel w e deps).world (resolveParams fuel w e deps).engine) := by
  intro fuel
  induction fuel with
  | zero =>
    refine ⟨?_, ?_, ?_, ?_, ?_⟩ <;> intros <;>
      simp only [getService, resolveService, constructInstance, createInstance, resolveParams] <;>
      exact hP.refl _ _
  | succ n ih =>
    obtain ⟨ihg, ihr, ihc, ihci, ihp⟩ := ih
    refine ⟨?_, ?_, ?_, ?_, ?_⟩
    · intro w e id
      simp only [getService]
      cases hreg : getEntry w.registry id with
      | none => exact hP.refl w e
      | some d => exact ihr w e d
    · intro w e d
      simp only [resolveService]
      by_cases h1 : d.lifetime = "singleton"
      · simp only [h1, if_pos rfl]
        cases hc : getEntry e.singletonInstances d.serviceType with
        | some inst => exact hP.refl w e
        | none =>
          have hbase := ihc w e d
          rcases hci : constructInstance n w e d with ⟨w', e', r⟩
          rw [hci] at hbase
          cases r with
          | ok v => exact hP.trans hbase (hP.setSing w' e' d.serviceType v)
          | error err => exact hbase
      · simp only [if_neg h1]
        by_cases h2 : d.lifetime = "scoped"
        · simp only [h2, if_pos rfl]
          cases hc : getEntry e.scopedInstances d.serviceType with
          | some inst => exact hP.refl w e
          | none =>
            have hbase := ihc w e d
            rcases hci : constructInstance n w e d with ⟨w', e', r⟩
            rw [hci] at hbase
            cases r with
            | ok v => exact hP.trans hbase (hP.setSco w' e' d.serviceType v)
            | error err => exact hbase
        · simp only [if_neg h2]
          by_cases h3 : d.lifetime = "transient"
          · simp only [h3, if_pos rfl]
            exact ihc w e d
          · simp only [if_neg h3]
            exact hP.refl w e
    · intro w e d
      simp only [constructInstance]
      cases hf : d.factory with
      | none => exact ihci w e d.implementationType
      | some fs =>
        cases fs with
        | make deps => exact ihci w e deps
        | throwErr => exact hP.refl w e
    · intro w e deps
      simp only [createInstance]
      have hbase := ihp w e deps
      rcases hp : resolveParams n w e deps with ⟨w', e', r⟩
      rw [hp] at hbase
      cases r with
      | ok vs => exact hP.trans hbase (hP.alloc w' e')
      | error err => exact hbase
    · intro w e deps
      cases deps with
      | nil => exact hP.refl w e
      | cons id rest =>
        have hbase := ihg w e id
        rcases hg : getService n w e id with ⟨w1, e1, r1⟩
        rw [hg] at hbase
        rw [resolveParams_cons, hg]
        cases r1 with
        | error err => exact hbase
        | ok v =>
          dsimp only
          have hrest := ihp w1 e1 rest
          rcases hp : resolveParams n w1 e1 rest with ⟨w2, e2, r2⟩
          rw [hp] at hrest
          cases r2 with
          | ok vs => exact hP.trans hbase hrest
          | error err => exact hP.trans hbase hrest

theorem sim_preResolve {P : World → Engine → World → Engine → Prop} (hP : StepClosed P)
    (fuel : Nat) :
    ∀ ds w e, P w e (preResolveSingletons fuel w e ds).world (preResolveSingletons fuel w e ds).engine := by
  intro ds
  induction ds with
  | nil =>
    intro w e
    simp only [preResolveSingletons]
    exact hP.refl w e
  | cons p rest ih =>
    intro w e
    obtain ⟨k, d⟩ := p
    simp only [preResolveSingletons]
    by_cases h1 : d.lifetime = "singleton"
    · simp only [h1, if_pos rfl]
      have hbase := (sim_all hP fuel).2.1 w e d
      rcases hr : resolveService fuel w e d with ⟨w', e', r⟩
      rw [hr] at hbase
      cases r with
      | ok v => exact hP.trans hbase (ih w' e')
      | error err => exact hbase
    · simp only [if_neg h1]
      exact ih w e

/-- Post-registry equals pre-registry is step-closed: no primitive engine step
writes the descriptor registry. -/
theorem stepClosed_registry : StepClosed (fun w1 _ w2 _ => w2.registry = w1.registry) :=
  ⟨fun _ _ => rfl, fun h1 h2 => h2.trans h1, fun _ _ => rfl, fun _ _ _ _ => rfl,
    fun _ _ _ _ => rfl⟩

/-- Counter growth is step-closed. -/
theorem stepClosed_counter : StepClosed (fun w1 _ w2 _ => w1.counter ≤ w2.counter) :=
  ⟨fun _ _ => le_rfl, fun h1 h2 => le_trans h1 h2, fun w _ => Nat.le_succ w.counter,
    fun _ _ _ _ => le_rfl, fun _ _ _ _ => le_rfl⟩

theorem getService_registry (fuel : Nat) (w : World) (e : Engine) (id : ServiceId) :
    (getService fuel w e id).world.registry = w.registry :=
  (sim_all stepClosed_registry fuel).1 w e id

theorem resolveService_registry (fuel : Nat) (w : World) (e : Engine) (d : ServiceDescriptor) :
    (resolveService fuel w e d).world.registry = w.registry :=
  (sim_all stepClosed_registry fuel).2.1 w e d

theorem constructInstance_registry (fuel : Nat) (w : World) (e : Engine) (d : ServiceDescriptor) :
    (constructInstance fuel w e d).world.registry = w.registry :=
  (sim_all stepClosed_registry fuel).2.2.1 w e d

theorem resolveParams_registry (fuel : Nat) (w : World) (e : Engine) (deps : List ServiceId) :
    (resolveParams fuel w e deps).world.registry = w.registry :=
  (sim_all stepClosed_registry fuel).2.2.2.2 w e deps

theorem getService_counter_le (fuel : Nat) (w : World) (e : Engine) (id : ServiceId) :
    w.counter ≤ (getService fuel w e id).world.counter :=
  (sim_all stepClosed_counter fuel).1 w e id

theorem resolveService_counter_le (fuel : Nat) (w : World) (e : Engine) (d : ServiceDescriptor) :
    w.counter ≤ (resolveService fuel w e d).world.counter :=
  (sim_all stepClosed_counter fuel).2.1 w e d

theorem constructInstance_counter_le (fuel : Nat) (w : World) (e : Engine)
    (d : ServiceDescriptor) : w.counter ≤ (constructInstance fuel w e d).world.counter :=
  (sim_all stepClosed_counter fuel).2.2.1 w e d

theorem resolveParams_counter_le (fuel : Nat) (w : World) (e : Engine) (deps : List ServiceId) :
    w.counter ≤ (resolveParams fuel w e deps).world.counter :=
  (sim_all stepClosed_counter fuel).2.2.2.2 w e deps

/-! ### One-step characterizations of the resolution functions -/

theorem getService_not_registered (n : Nat) (w : World) (e : Engine) (id : ServiceId)
    (h : getEntry w.registry id = none) :
    getService (n + 1) w e id = ⟨w, e, .error (.serviceNotRegistered id)⟩ := by
  simp only [getService, h]

theorem getService_registered (n : Nat) (w : World) (e : Engine) (id : ServiceId)
    (d : ServiceDescriptor) (h : getEntry w.registry id = some d) :
    getService (n + 1) w e id = resolveService n w e d := by
  simp only [getService, h]

theorem resolveService_singleton_hit (n : Nat) (w : World) (e : Engine) (d : ServiceDescriptor)
    (v : Instance) (hl : d.lifetime = "singleton")
    (hc : getEntry e.singletonInstances d.serviceType = some v) :
    resolveService (n + 1) w e d = ⟨w, e, .ok v⟩ := by
  simp [resolveService, hl, hc]

theorem resolveService_singleton_miss (n : Nat) (w : World) (e : Engine) (d : ServiceDescriptor)
    (hl : d.lifetime = "singleton") (hc : getEntry e.singletonInstances d.serviceType = none) :
    resolveService (n + 1) w e d =
      match constructInstance n w e d with
      | ⟨w', e', .ok inst⟩ =>
        ⟨w', { e' with singletonInstances := setEntry e'.singletonInstances d.serviceType inst },
          .ok inst⟩
      | ⟨w', e', .error err⟩ => ⟨w', e', .error err⟩ := by
  simp [resolveService, hl, hc]

theorem resolveService_scoped_hit (n : Nat) (w : World) (e : Engine) (d : ServiceDescriptor)
    (v : Instance) (hl : d.lifetime = "scoped")
    (hc : getEntry e.scopedInstances d.serviceType = some v) :
    resolveService (n + 1) w e d = ⟨w, e, .ok v⟩ := by
  simp [resolveService, hl, hc]

theorem resolveService_scoped_miss (n : Nat) (w : World) (e : Engine) (d : ServiceDescriptor)
    (hl : d.lifetime = "scoped") (hc : getEntry e.scopedInstances d.serviceType = none) :
    resolveService (n + 1) w e d =
      match constructInstance n w e d with
      | ⟨w', e', .ok inst⟩ =>
        ⟨w', { e' with scopedInstances := setEntry e'.scopedInstances d.serviceType inst },
          .ok inst⟩
      | ⟨w', e', .error err⟩ => ⟨w', e', .error err⟩ := by
  simp [resolveService, hl, hc]

theorem resolveService_transient (n : Nat) (w : World) (e : Engine) (d : ServiceDescriptor)
    (hl : d.lifetime = "transient") :
    resolveService (n + 1) w e d = constructInstance n w e d := by
  simp [resolveService, hl]

theorem resolveService_unknown (n : Nat) (w : World) (e : Engine) (d : ServiceDescriptor)
    (h1 : d.lifetime ≠ "singleton") (h2 : d.lifetime ≠ "scoped")
    (h3 : d.lifetime ≠ "transient") :
    resolveService (n + 1) w e d = ⟨w, e, .error (.unknownLifetime d.lifetime)⟩ := by
  simp [resolveService, h1, h2, h3]

theorem constructInstance_noFactory (n : Nat) (w : World) (e : Engine) (d : ServiceDescriptor)
    (hf : d.factory = none) :
    constructInstance (n + 1) w e d = createInstance n w e d.implementationType := by
  simp [constructInstance, hf]

/-- Unfolding equation for `createInstance` at positive fuel. -/
theorem createInstance_succ (n : Nat) (w : World) (e : Engine) (deps : List ServiceId) :
    createInstance (n + 1) w e deps =
      match resolveParams n w e deps with
      | ⟨w', e', .ok _⟩ => ⟨{ w' with counter := w'.counter + 1 }, e', .ok w'.counter⟩
      | ⟨w', e', .error err⟩ => ⟨w', e', .error err⟩ := rfl

/-- The instance returned by a successful constructor invocation is freshly
allocated: at least the starting counter, strictly below the final one. -/
theorem createInstance_ok_fresh (n : Nat) (w : World) (e : Engine) (deps : List ServiceId)
    (w' : World) (e' : Engine) (v : Instance)
    (h : createInstance (n + 1) w e deps = ⟨w', e', .ok v⟩) :
    w.counter ≤ v ∧ v < w'.counter := by
  have hmono := resolveParams_counter_le n w e deps
  rcases hp : resolveParams n w e deps with ⟨w1, e1, r1⟩
  rw [hp] at hmono
  rw [createInstance_succ, hp] at h
  cases r1 with
  | ok vs =>
    simp only [Res.mk.injEq] at h
    obtain ⟨hw, he, hv⟩ := h
    have hv' : v = w1.counter := by
      injection hv with hv
      exact hv.symm
    subst hv'
    subst hw
    exact ⟨hmono, Nat.lt_succ_self _⟩
  | error err => simp at h

theorem constructInstance_factoryMake (n : Nat) (w : World) (e : Engine) (d : ServiceDescriptor)
    (deps : List ServiceId) (hf : d.factory = some (.make deps)) :
    constructInstance (n + 1) w e d = createInstance n w e deps := by
  simp [constructInstance, hf]

theorem constructInstance_throw (n : Nat) (w : World) (e : Engine) (d : ServiceDescriptor)
    (hf : d.factory = some .throwErr) :
    constructInstance (n + 1) w e d = ⟨w, e, .error .clientError⟩ := by
  simp [constructInstance, hf]

/-! ### Singleton-cache entries are never overwritten

Once an identifier has a singleton-cache entry, every resolution function
leaves that entry — key and value — untouched: the only write to the
singleton cache happens in the cache-miss branch for that same key. -/

theorem singleton_entry_preserved (fuel : Nat) :
    (∀ w e id k v, getEntry e.singletonInstances k = some v →
      getEntry (getService fuel w e id).engine.singletonInstances k = some v) ∧
    (∀ w e d k v, getEntry e.singletonInstances k = some v →
      getEntry (resolveService fuel w e d).engine.singletonInstances k = some v) ∧
    (∀ w e d k v, getEntry e.singletonInstances k = some v →
      getEntry (constructInstance fuel w e d).engine.singletonInstances k = some v) ∧
    (∀ w e deps k v, getEntry e.singletonInstances k = some v →
      getEntry (createInstance fuel w e deps).engine.singletonInstances k = some v) ∧
    (∀ w e deps k v, getEntry e.singletonInstances k = some v →
      getEntry (resolveParams fuel w e deps).engine.singletonInstances k = some v) := by
  induction fuel with
  | zero => refine ⟨?_, ?_, ?_, ?_, ?_⟩ <;> (intro w e x k v h; exact h)
  | succ n ih =>
    obtain ⟨ihg, ihr, ihc, ihci, ihp⟩ := ih
    refine ⟨?_, ?_, ?_, ?_, ?_⟩
    · intro w e id k v h
      cases hreg : getEntry w.registry id with
      | none => rw [getService_not_registered n w e id hreg]; exact h
      | some d => rw [getService_registered n w e id d hreg]; exact ihr w e d k v h
    · intro w e d k v h
      by_cases h1 : d.lifetime = "singleton"
      · by_cases hk : d.serviceType = k
        · subst hk
          rw [resolveService_singleton_hit n w e d v h1 h]
          exact h
        · cases hc : getEntry e.singletonInstances d.serviceType with
          | some u => rw [resolveService_singleton_hit n w e d u h1 hc]; exact h
          | none =>
            rw [resolveService_singleton_miss n w e d h1 hc]
            have hbase := ihc w e d k v h
            rcases hci : constructInstance n w e d with ⟨w1, e1, r⟩
            rw [hci] at hbase
            cases r with
            | ok inst =>
              dsimp only
              rw [getEntry_setEntry_ne _ _ _ _ (fun hh => hk hh.symm)]
              exact hbase
            | error err => exact hbase
      · by_cases h2 : d.lifetime = "scoped"
        · cases hc : getEntry e.scopedInstances d.serviceType with
          | some u => rw [resolveService_scoped_hit n w e d u h2 hc]; exact h
          | none =>
            rw [resolveService_scoped_miss n w e d h2 hc]
            have hbase := ihc w e d k v h
            rcases hci : constructInstance n w e d with ⟨w1, e1, r⟩
            rw [hci] at hbase
            cases r with
            | ok inst => exact hbase
            | error err => exact hbase
        · by_cases h3 : d.lifetime = "transient"
          · rw [resolveService_transient n w e d h3]; exact ihc w e d k v h
          · rw [resolveService_unknown n w e d h1 h2 h3]; exact h
    · intro w e d k v h
      cases hf : d.factory with
      | none => rw [constructInstance_noFactory n w e d hf]; exact ihci w e d.implementationType k v h
      | some fs =>
        cases fs with
        | make deps => rw [constructInstance_factoryMake n w e d deps hf]; exact ihci w e deps k v h
        | throwErr => rw [constructInstance_throw n w e d hf]; exact h
    · intro w e deps k v h
      rw [createInstance_succ]
      have hbase := ihp w e deps k v h
      rcases hp : resolveParams n w e deps with ⟨w1, e1, r⟩
      rw [hp] at hbase
      cases r with
      | ok vs => exact hbase
      | error err => exact hbase
    · intro w e deps k v h
      cases deps with
      | nil => exact h
      | cons id rest =>
        rw [resolveParams_cons]
        have hbase := ihg w e id k v h
        rcases hg : getService n w e id with ⟨w1, e1, r1⟩
        rw [hg] at hbase
        cases r1 with
        | error err => exact hbase
        | ok vv =>
          dsimp only
          have hrest := ihp w1 e1 rest k v hbase
          rcases hp : resolveParams n w1 e1 rest with ⟨w2, e2, r2⟩
          rw [hp] at hrest
          cases r2 with
          | ok vs => exact hrest
          | error err => exact hrest

theorem preResolve_singleton_entry_preserved (fuel : Nat) :
    ∀ ds w e k v, getEntry e.singletonInstances k = some v →
      getEntry (preResolveSingletons fuel w e ds).engine.singletonInstances k = some v := by
  intro ds
  induction ds with
  | nil => intro w e k v h; exact h
  | cons p rest ih =>
    intro w e k v h
    obtain ⟨kk, d⟩ := p
    simp only [preResolveSingletons]
    by_cases h1 : d.lifetime = "singleton"
    · simp only [h1, if_pos rfl]
      have hbase := (singleton_entry_preserved fuel).2.1 w e d k v h
      rcases hr : resolveService fuel w e d with ⟨w1, e1, r⟩
      rw [hr] at hbase
      cases r with
      | ok u => exact ih w1 e1 k v hbase
      | error err => exact hbase
    · simp only [if_neg h1]
      exact ih w e k v h

/-! ### Cache state after a successful singleton/scoped resolution -/

theorem resolveService_singleton_ok_entry (n : Nat) (w : World) (e : Engine)
    (d : ServiceDescriptor) (r : Res Instance) (h : resolveService (n + 1) w e d = r)
    (hl : d.lifetime = "singleton") (v : Instance) (hv : r.out = .ok v) :
    getEntry r.engine.singletonInstances d.serviceType = some v := by
  cases hc : getEntry e.singletonInstances d.serviceType with
  | some u =>
    rw [resolveService_singleton_hit n w e d u hl hc] at h
    subst h
    simp only at hv
    injection hv with hv
    subst hv
    exact hc
  | none =>
    rw [resolveService_singleton_miss n w e d hl hc] at h
    rcases hci : constructInstance n w e d with ⟨w1, e1, rr⟩
    rw [hci] at h
    cases rr with
    | ok inst =>
      subst h
      simp only at hv
      injection hv with hv
      subst hv
      exact getEntry_setEntry_self _ _ _
    | error err =>
      subst h
      simp at hv

theorem resolveService_scoped_ok_entry (n : Nat) (w : World) (e : Engine)
    (d : ServiceDescriptor) (r : Res Instance) (h : resolveService (n + 1) w e d = r)
    (hl : d.lifetime = "scoped") (v : Instance) (hv : r.out = .ok v) :
    getEntry r.engine.scopedInstances d.serviceType = some v := by
  cases hc : getEntry e.scopedInstances d.serviceType with
  | some u =>
    rw [resolveService_scoped_hit n w e d u hl hc] at h
    subst h
    simp only at hv
    injection hv with hv
    subst hv
    exact hc
  | none =>
    rw [resolveService_scoped_miss n w e d hl hc] at h
    rcases hci : constructInstance n w e d with ⟨w1, e1, rr⟩
    rw [hci] at h
    cases rr with
    | ok inst =>
      subst h
      simp only at hv
      injection hv with hv
      subst hv
      exact getEntry_setEntry_self _ _ _
    | error err =>
      subst h
      simp at hv

/-- Every descriptor of the registry whose lifetime is `singleton` already has
an entry in the engine's singleton cache. -/
def AllSingletonsCached (reg : List (ServiceId × ServiceDescriptor)) (e : Engine) : Prop :=
  ∀ p ∈ reg, p.2.lifetime = "singleton" →
    ∃ v, getEntry e.singletonInstances p.2.serviceType = some v

/-- When every singleton descriptor is already cached, the constructor's
pre-resolution loop is pure cache hits: it changes nothing and succeeds. -/
theorem preResolve_allCached_noop (n : Nat) :
    ∀ ds (w : World) (e : Engine),
      (∀ p ∈ ds, p.2.lifetime = "singleton" →
        ∃ v, getEntry e.singletonInstances p.2.serviceType = some v) →
      preResolveSingletons (n + 1) w e ds = ⟨w, e, .ok ()⟩ := by
  intro ds
  induction ds with
  | nil => intro w e _; rfl
  | cons p rest ih =>
    intro w e hall
    obtain ⟨kk, d⟩ := p
    simp only [preResolveSingletons]
    by_cases h1 : d.lifetime = "singleton"
    · simp only [h1, if_pos rfl]
      obtain ⟨v, hv⟩ := hall (kk, d) (List.mem_cons_self _ _) h1
      rw [resolveService_singleton_hit n w e d v h1 hv]
      exact ih w e (fun q hq hql => hall q (List.mem_cons_of_mem _ hq) hql)
    · simp only [if_neg h1]
      exact ih w e (fun q hq hql => hall q (List.mem_cons_of_mem _ hq) hql)

/-- If the pre-resolution loop finishes without throwing, every singleton
descriptor it visited has a singleton-cache entry afterwards. -/
theorem preResolve_ok_all_cached (fuel : Nat) :
    ∀ ds (w : World) (e : Engine) (w' : World) (e' : Engine),
      preResolveSingletons fuel w e ds = ⟨w', e', .ok ()⟩ →
      ∀ p ∈ ds, p.2.lifetime = "singleton" →
        ∃ v, getEntry e'.singletonInstances p.2.serviceType = some v := by
  intro ds
  induction ds with
  | nil => intro w e w' e' _ p hp; exact absurd hp (List.not_mem_nil p)
  | cons q rest ih =>
    intro w e w' e' h p hp hpl
    obtain ⟨kk, d⟩ := q
    simp only [preResolveSingletons] at h
    by_cases h1 : d.lifetime = "singleton"
    · rw [if_pos h1] at h
      rcases hr : resolveService fuel w e d with ⟨w1, e1, r⟩
      rw [hr] at h
      cases r with
      | error err => simp at h
      | ok u =>
        dsimp only at h
        rcases List.mem_cons.mp hp with hph | hpr
        · subst hph
          cases fuel with
          | zero => exact absurd hr (by simp [resolveService])
          | succ n =>
            have hentry := resolveService_singleton_ok_entry n w e d ⟨w1, e1, .ok u⟩ hr h1 u rfl
            have hpres := preResolve_singleton_entry_preserved (n + 1) rest w1 e1
              d.serviceType u hentry
            rw [h] at hpres
            exact ⟨u, hpres⟩
        · exact ih w1 e1 w' e' h p hpr hpl
    · rw [if_neg h1] at h
      rcases List.mem_cons.mp hp with hph | hpr
      · subst hph
        exact absurd hpl h1
      · exact ih w e w' e' h p hpr hpl

/-- The singleton cache a new provider starts from: a value copy of the
parent's, or empty at the root. -/
def initialSingletons : Option Engine → List (ServiceId × Instance)
  | some p => p.singletonInstances
  | none => []

/-- Unfolding equation for `mkProvider`. -/
theorem mkProvider_eq (fuel : Nat) (w : World) (parent : Option Engine) :
    mkProvider fuel w parent =
      match preResolveSingletons fuel w ⟨initialSingletons parent, []⟩ w.registry with
      | ⟨w', e', .ok _⟩ => (w', .ok e')
      | ⟨w', _, .error err⟩ => (w', .error err) := by
  cases parent <;> rfl

/-- A successfully constructed provider has a singleton-cache entry for every
singleton descriptor of the registry. -/
theorem mkProvider_ok_all_singletons_cached (fuel : Nat) (w : World)
    (parent : Option Engine) (w' : World) (e' : Engine)
    (h : mkProvider fuel w parent = (w', .ok e')) :
    AllSingletonsCached w.registry e' := by
  intro p hp hpl
  rw [mkProvider_eq] at h
  rcases hpre : preResolveSingletons fuel w ⟨initialSingletons parent, []⟩ w.registry
    with ⟨w1, e1, r⟩
  rw [hpre] at h
  cases r with
  | ok u =>
    dsimp only at h
    simp only [Prod.mk.injEq] at h
    obtain ⟨hw, he⟩ := h
    injection he with he
    subst he
    exact preResolve_ok_all_cached fuel w.registry w _ w1 e1 (by cases u; exact hpre) p hp hpl
  | error err => simp at h

/-- Creating a scope from an engine whose singleton cache already covers every
singleton descriptor succeeds without any state change: the child starts with
a value copy of the parent's singleton cache and an empty scoped cache. -/
theorem mkProvider_allCached (n : Nat) (w : World) (p : Engine)
    (hall : AllSingletonsCached w.registry p) :
    mkProvider (n + 1) w (some p) = (w, .ok ⟨p.singletonInstances, []⟩) := by
  simp only [mkProvider]
  rw [preResolve_allCached_noop n w.registry w ⟨p.singletonInstances, []⟩ hall]

/-! ### Freshness of constructed instances -/

theorem createInstance_ok_fresh' (fuel : Nat) (w : World) (e : Engine) (deps : List ServiceId)
    (w' : World) (e' : Engine) (v : Instance)
    (h : createInstance fuel w e deps = ⟨w', e', .ok v⟩) :
    w.counter ≤ v ∧ v < w'.counter := by
  cases fuel with
  | zero => exact absurd h (by simp [createInstance])
  | succ n => exact createInstance_ok_fresh n w e deps w' e' v h

theorem constructInstance_ok_fresh (fuel : Nat) (w : World) (e : Engine) (d : ServiceDescriptor)
    (w' : World) (e' : Engine) (v : Instance) (hf : d.factory = none)
    (h : constructInstance fuel w e d = ⟨w', e', .ok v⟩) :
    w.counter ≤ v ∧ v < w'.counter := by
  cases fuel with
  | zero => exact absurd h (by simp [constructInstance])
  | succ n =>
    rw [constructInstance_noFactory n w e d hf] at h
    exact createInstance_ok_fresh' n w e d.implementationType w' e' v h

/-- A scoped cache miss with no factory returns a freshly allocated instance. -/
theorem resolveService_scoped_miss_ok_fresh (fuel : Nat) (w : World) (e : Engine)
    (d : ServiceDescriptor) (w' : World) (e' : Engine) (v : Instance)
    (hl : d.lifetime = "scoped") (hmiss : getEntry e.scopedInstances d.serviceType = none)
    (hf : d.factory = none) (h : resolveService fuel w e d = ⟨w', e', .ok v⟩) :
    w.counter ≤ v ∧ v < w'.counter := by
  cases fuel with
  | zero => exact absurd h (by simp [resolveService])
  | succ n =>
    rw [resolveService_scoped_miss n w e d hl hmiss] at h
    rcases hci : constructInstance n w e d with ⟨w1, e1, rr⟩
    rw [hci] at h
    cases rr with
    | ok inst =>
      simp only [Res.mk.injEq] at h
      obtain ⟨hw, he2, hv⟩ := h
      injection hv with hv
      have hfr := constructInstance_ok_fresh n w e d w1 e1 inst hf hci
      rw [hw, hv] at hfr
      exact hfr
    | error err => exact absurd h (by simp)

/-- A transient resolution with no factory returns a freshly allocated
instance. -/
theorem resolveService_transient_ok_fresh (fuel : Nat) (w : World) (e : Engine)
    (d : ServiceDescriptor) (w' : World) (e' : Engine) (v : Instance)
    (hl : d.lifetime = "transient") (hf : d.factory = none)
    (h : resolveService fuel w e d = ⟨w', e', .ok v⟩) :
    w.counter ≤ v ∧ v < w'.counter := by
  cases fuel with
  | zero => exact absurd h (by simp [resolveService])
  | succ n =>
    rw [resolveService_transient n w e d hl] at h
    exact constructInstance_ok_fresh n w e d w' e' v hf h

theorem getEntry_mem {α : Type} (m : List (ServiceId × α)) (k : ServiceId) (v : α)
    (h : getEntry m k = some v) : (k, v) ∈ m := by
  induction m with
  | nil => exact absurd h (by simp [getEntry])
  | cons p rest ih =>
    obtain ⟨k0, v0⟩ := p
    by_cases h0 : k0 = k
    · subst h0
      simp only [getEntry, if_pos rfl] at h
      injection h with h
      subst h
      exact List.mem_cons_self _ _
    · simp only [getEntry, if_neg h0] at h
      exact List.mem_cons_of_mem _ (ih h)

theorem resolveService_singleton_ok_entry' (fuel : Nat) (w : World) (e : Engine)
    (d : ServiceDescriptor) (r : Res Instance) (h : resolveService fuel w e d = r)
    (hl : d.lifetime = "singleton") (v : Instance) (hv : r.out = .ok v) :
    getEntry r.engine.singletonInstances d.serviceType = some v := by
  cases fuel with
  | zero =>
    subst h
    simp [resolveService] at hv
  | succ n => exact resolveService_singleton_ok_entry n w e d r h hl v hv

theorem resolveService_scoped_ok_entry' (fuel : Nat) (w : World) (e : Engine)
    (d : ServiceDescriptor) (r : Res Instance) (h : resolveService fuel w e d = r)
    (hl : d.lifetime = "scoped") (v : Instance) (hv : r.out = .ok v) :
    getEntry r.engine.scopedInstances d.serviceType = some v := by
  cases fuel with
  | zero =>
    subst h
    simp [resolveService] at hv
  | succ n => exact resolveService_scoped_ok_entry n w e d r h hl v hv

/-- A successful `getService` of a scoped identifier that misses the scoped
cache returns a freshly allocated instance. -/
theorem getService_scoped_miss_ok_fresh (fuel : Nat) (w : World) (e : Engine) (id : ServiceId)
    (d : ServiceDescriptor) (w' : World) (e' : Engine) (v : Instance)
    (hreg : getEntry w.registry id = some d) (hl : d.lifetime = "scoped")
    (hmiss : getEntry e.scopedInstances d.serviceType = none) (hf : d.factory = none)
    (h : getService fuel w e id = ⟨w', e', .ok v⟩) :
    w.counter ≤ v ∧ v < w'.counter := by
  cases fuel with
  | zero => exact absurd h (by simp [getService])
  | succ n =>
    rw [getService_registered n w e id d hreg] at h
    exact resolveService_scoped_miss_ok_fresh n w e d w' e' v hl hmiss hf h

/-- A successful `getService` of a transient identifier returns a freshly
allocated instance. -/
theorem getService_transient_ok_fresh (fuel : Nat) (w : World) (e : Engine) (id : ServiceId)
    (d : ServiceDescriptor) (w' : World) (e' : Engine) (v : Instance)
    (hreg : getEntry w.registry id = some d) (hl : d.lifetime = "transient")
    (hf : d.factory = none) (h : getService fuel w e id = ⟨w', e', .ok v⟩) :
    w.counter ≤ v ∧ v < w'.counter := by
  cases fuel with
  | zero => exact absurd h (by simp [getService])
  | succ n =>
    rw [getService_registered n w e id d hreg] at h
    exact resolveService_transient_ok_fresh n w e d w' e' v hl hf h

theorem preResolve_registry_inv (fuel : Nat) (w : World) (e : Engine)
    (ds : List (ServiceId × ServiceDescriptor)) :
    (preResolveSingletons fuel w e ds).world.registry = w.registry :=
  sim_preResolve stepClosed_registry fuel ds w e

theorem preResolve_counter_le (fuel : Nat) (w : World) (e : Engine)
    (ds : List (ServiceId × ServiceDescriptor)) :
    w.counter ≤ (preResolveSingletons fuel w e ds).world.counter :=
  sim_preResolve stepClosed_counter fuel ds w e

/-- Provider construction never mutates the registry. -/
theorem mkProvider_registry_inv (fuel : Nat) (w : World) (parent : Option Engine) :
    (mkProvider fuel w parent).1.registry = w.registry := by
  rw [mkProvider_eq]
  have hinv := preResolve_registry_inv fuel w ⟨initialSingletons parent, []⟩ w.registry
  rcases hpre : preResolveSingletons fuel w ⟨initialSingletons parent, []⟩ w.registry
    with ⟨w1, e1, r⟩
  rw [hpre] at hinv
  cases r with
  | ok u => exact hinv
  | error err => exact hinv

/-- A singleton-cache entry already present in the cache a new provider starts
from survives provider construction with the same value. -/
theorem mkProvider_singleton_entry_preserved (fuel : Nat) (w : World) (parent : Option Engine)
    (w' : World) (e' : Engine) (k : ServiceId) (v : Instance)
    (h : mkProvider fuel w parent = (w', .ok e'))
    (hv : getEntry (initialSingletons parent) k = some v) :
    getEntry e'.singletonInstances k = some v := by
  rw [mkProvider_eq] at h
  have hpres := preResolve_singleton_entry_preserved fuel w.registry w
    ⟨initialSingletons parent, []⟩ k v hv
  rcases hpre : preResolveSingletons fuel w ⟨initialSingletons parent, []⟩ w.registry
    with ⟨w1, e1, r⟩
  rw [hpre] at h hpres
  cases r with
  | ok u =>
    dsimp only at h hpres
    simp only [Prod.mk.injEq] at h
    obtain ⟨hw, he⟩ := h
    injection he with he
    subst he
    exact hpres
  | error err => simp at h

/-- A lifetime tag the dispatch recognizes. -/
def RecognizedLifetime (s : String) : Prop :=
  s = "singleton" ∨ s = "scoped" ∨ s = "transient"

/-- Every descriptor stored in the registry carries a recognized lifetime
tag (what the type `ServiceLifetime` guarantees for registrations made
through the builder). -/
def WellTypedRegistry (reg : List (ServiceId × ServiceDescriptor)) : Prop :=
  ∀ p ∈ reg, RecognizedLifetime p.2.lifetime

/-- Over a well-typed registry, no resolution function ever produces an
`unknownLifetime` error (for `resolveService` itself, provided its descriptor
argument carries a recognized tag). -/
theorem no_unknownLifetime (fuel : Nat) :
    (∀ w e id, WellTypedRegistry w.registry →
      ∀ tag, (getService fuel w e id).out ≠ .error (.unknownLifetime tag)) ∧
    (∀ w e d, WellTypedRegistry w.registry → RecognizedLifetime d.lifetime →
      ∀ tag, (resolveService fuel w e d).out ≠ .error (.unknownLifetime tag)) ∧
    (∀ w e d, WellTypedRegistry w.registry →
      ∀ tag, (constructInstance fuel w e d).out ≠ .error (.unknownLifetime tag)) ∧
    (∀ w e deps, WellTypedRegistry w.registry →
      ∀ tag, (createInstance fuel w e deps).out ≠ .error (.unknownLifetime tag)) ∧
    (∀ w e deps, WellTypedRegistry w.registry →
      ∀ tag, (resolveParams fuel w e deps).out ≠ .error (.unknownLifetime tag)) := by
  induction fuel with
  | zero =>
    refine ⟨?_, ?_, ?_, ?_, ?_⟩ <;> intros <;>
      simp [getService, resolveService, constructInstance, createInstance, resolveParams]
  | succ n ih =>
    obtain ⟨ihg, ihr, ihc, ihci, ihp⟩ := ih
    refine ⟨?_, ?_, ?_, ?_, ?_⟩
    · intro w e id hwt tag
      cases hreg : getEntry w.registry id with
      | none => rw [getService_not_registered n w e id hreg]; simp
      | some d =>
        rw [getService_registered n w e id d hreg]
        exact ihr w e d hwt (hwt (id, d) (getEntry_mem _ _ _ hreg)) tag
    · intro w e d hwt hrec tag
      rcases hrec with h1 | h2 | h3
      · cases hc : getEntry e.singletonInstances d.serviceType with
        | some u => rw [resolveService_singleton_hit n w e d u h1 hc]; simp
        | none =>
          rw [resolveService_singleton_miss n w e d h1 hc]
          have hbase := ihc w e d hwt tag
          rcases hci : constructInstance n w e d with ⟨w1, e1, rr⟩
          rw [hci] at hbase
          cases rr with
          | ok inst => simp
          | error err => simpa using hbase
      · cases hc : getEntry e.scopedInstances d.serviceType with
        | some u => rw [resolveService_scoped_hit n w e d u h2 hc]; simp
        | none =>
          rw [resolveService_scoped_miss n w e d h2 hc]
          have hbase := ihc w e d hwt tag
          rcases hci : constructInstance n w e d with ⟨w1, e1, rr⟩
          rw [hci] at hbase
          cases rr with
          | ok inst => simp
          | error err => simpa using hbase
      · rw [resolveService_transient n w e d h3]
        exact ihc w e d hwt tag
    · intro w e d hwt tag
      cases hf : d.factory with
      | none => rw [constructInstance_noFactory n w e d hf]; exact ihci w e d.implementationType hwt tag
      | some fs =>
        cases fs with
        | make deps => rw [constructInstance_factoryMake n w e d deps hf]; exact ihci w e deps hwt tag
        | throwErr => rw [constructInstance_throw n w e d hf]; simp
    · intro w e deps hwt tag
      rw [createInstance_succ]
      have hbase := ihp w e deps hwt tag
      rcases hp : resolveParams n w e deps with ⟨w1, e1, r⟩
      rw [hp] at hbase
      cases r with
      | ok vs => simp
      | error err => simpa using hbase
    · intro w e deps hwt tag
      cases deps with
      | nil => simp [resolveParams]
      | cons id rest =>
        rw [resolveParams_cons]
        have hbase := ihg w e id hwt tag
        rcases hg : getService n w e id with ⟨w1, e1, r1⟩
        rw [hg] at hbase
        cases r1 with
        | error err => simpa using hbase
        | ok vv =>
          dsimp only
          have hreg1 : w1.registry = w.registry := by
            have := getService_registry n w e id
            rw [hg] at this
            exact this
          have hwt1 : WellTypedRegistry w1.registry := by rw [hreg1]; exact hwt
          have hrest := ihp w1 e1 rest hwt1 tag
          rcases hp : resolveParams n w1 e1 rest with ⟨w2, e2, r2⟩
          rw [hp] at hrest
          cases r2 with
          | ok vs => simp
          | error err => simpa using hrest

/-- The dependency identifiers a descriptor's construction step resolves: the
factory's requested services when a factory is present, otherwise the
implementation class's constructor-dependency identifiers. -/
def descriptorDeps (d : ServiceDescriptor) : List ServiceId :=
  match d.factory with
  | some (.make deps) => deps
  | some .throwErr => []
  | none => d.implementationType

/-- Every registry entry is stored under its descriptor's own identifier —
what `ServiceCollection.add` guarantees (`set(serviceType, descriptor)`). -/
def KeyedRegistry (reg : List (ServiceId × ServiceDescriptor)) : Prop :=
  ∀ p ∈ reg, p.2.serviceType = p.1

/-- `Reaches reg a b`: starting a resolution of `a` can recursively demand a
resolution of `b` through registered constructor/factory dependencies. -/
inductive Reaches (reg : List (ServiceId × ServiceDescriptor)) : ServiceId → ServiceId → Prop where
  | refl (a : ServiceId) : Reaches reg a a
  | step (a b c : ServiceId) (d : ServiceDescriptor) (hd : getEntry reg a = some d)
      (hb : b ∈ descriptorDeps d) (hr : Reaches reg b c) : Reaches reg a c

theorem descriptorDeps_noFactory (d : ServiceDescriptor) (hf : d.factory = none) :
    descriptorDeps d = d.implementationType := by
  simp [descriptorDeps, hf]

theorem descriptorDeps_make (d : ServiceDescriptor) (deps : List ServiceId)
    (hf : d.factory = some (.make deps)) : descriptorDeps d = deps := by
  simp [descriptorDeps, hf]

/-- Frame property: resolving an identifier from which `t` is unreachable
leaves both cache entries of `t` untouched. -/
theorem frame_unreached (fuel : Nat) :
    (∀ w e id t, KeyedRegistry w.registry → ¬ Reaches w.registry id t →
      getEntry (getService fuel w e id).engine.singletonInstances t
          = getEntry e.singletonInstances t ∧
      getEntry (getService fuel w e id).engine.scopedInstances t
          = getEntry e.scopedInstances t) ∧
    (∀ w e d t, KeyedRegistry w.registry → d.serviceType ≠ t →
      (∀ u ∈ descriptorDeps d, ¬ Reaches w.registry u t) →
      getEntry (resolveService fuel w e d).engine.singletonInstances t
          = getEntry e.singletonInstances t ∧
      getEntry (resolveService fuel w e d).engine.scopedInstances t
          = getEntry e.scopedInstances t) ∧
    (∀ w e d t, KeyedRegistry w.registry →
      (∀ u ∈ descriptorDeps d, ¬ Reaches w.registry u t) →
      getEntry (constructInstance fuel w e d).engine.singletonInstances t
          = getEntry e.singletonInstances t ∧
      getEntry (constructInstance fuel w e d).engine.scopedInstances t
          = getEntry e.scopedInstances t) ∧
    (∀ w e deps t, KeyedRegistry w.registry → (∀ u ∈ deps, ¬ Reaches w.registry u t) →
      getEntry (createInstance fuel w e deps).engine.singletonInstances t
          = getEntry e.singletonInstances t ∧
      getEntry (createInstance fuel w e deps).engine.scopedInstances t
          = getEntry e.scopedInstances t) ∧
    (∀ w e deps t, KeyedRegistry w.registry → (∀ u ∈ deps, ¬ Reaches w.registry u t) →
      getEntry (resolveParams fuel w e deps).engine.singletonInstances t
          = getEntry e.singletonInstances t ∧
      getEntry (resolveParams fuel w e deps).engine.scopedInstances t
          = getEntry e.scopedInstances t) := by
  induction fuel with
  | zero => refine ⟨?_, ?_, ?_, ?_, ?_⟩ <;> intros <;> exact ⟨rfl, rfl⟩
  | succ n ih =>
    obtain ⟨ihg, ihr, ihc, ihci, ihp⟩ := ih
    refine ⟨?_, ?_, ?_, ?_, ?_⟩
    · intro w e id t hkeys hnr
      cases hreg : getEntry w.registry id with
      | none => rw [getService_not_registered n w e id hreg]; exact ⟨rfl, rfl⟩
      | some d =>
        rw [getService_registered n w e id d hreg]
        have hst : d.serviceType = id := hkeys (id, d) (getEntry_mem _ _ _ hreg)
        have hne : d.serviceType ≠ t := by
          intro hEq
          have hidt : id = t := by rw [← hst, hEq]
          subst hidt
          exact hnr (Reaches.refl id)
        have hdeps : ∀ u ∈ descriptorDeps d, ¬ Reaches w.registry u t := by
          intro u hu hr
          exact hnr (Reaches.step id u t d hreg hu hr)
        exact ihr w e d t hkeys hne hdeps
    · intro w e d t hkeys hne hdeps
      by_cases h1 : d.lifetime = "singleton"
      · cases hc : getEntry e.singletonInstances d.serviceType with
        | some u => rw [resolveService_singleton_hit n w e d u h1 hc]; exact ⟨rfl, rfl⟩
        | none =>
          rw [resolveService_singleton_miss n w e d h1 hc]
          have hbase := ihc w e d t hkeys hdeps
          rcases hci : constructInstance n w e d with ⟨w1, e1, rr⟩
          rw [hci] at hbase
          obtain ⟨hbS, hbC⟩ := hbase
          cases rr with
          | ok inst =>
            refine ⟨?_, hbC⟩
            dsimp only
            rw [getEntry_setEntry_ne _ _ _ _ (fun hh => hne hh.symm)]
            exact hbS
          | error err => exact ⟨hbS, hbC⟩
      · by_cases h2 : d.lifetime = "scoped"
        · cases hc : getEntry e.scopedInstances d.serviceType with
          | some u => rw [resolveService_scoped_hit n w e d u h2 hc]; exact ⟨rfl, rfl⟩
          | none =>
            rw [resolveService_scoped_miss n w e d h2 hc]
            have hbase := ihc w e d t hkeys hdeps
            rcases hci : constructInstance n w e d with ⟨w1, e1, rr⟩
            rw [hci] at hbase
            obtain ⟨hbS, hbC⟩ := hbase
            cases rr with
            | ok inst =>
              refine ⟨hbS, ?_⟩
              dsimp only
              rw [getEntry_setEntry_ne _ _ _ _ (fun hh => hne hh.symm)]
              exact hbC
            | error err => exact ⟨hbS, hbC⟩
        · by_cases h3 : d.lifetime = "transient"
          · rw [resolveService_transient n w e d h3]
            exact ihc w e d t hkeys hdeps
          · rw [resolveService_unknown n w e d h1 h2 h3]; exact ⟨rfl, rfl⟩
    · intro w e d t hkeys hdeps
      cases hf : d.factory with
      | none =>
        rw [constructInstance_noFactory n w e d hf]
        rw [descriptorDeps_noFactory d hf] at hdeps
        exact ihci w e d.implementationType t hkeys hdeps
      | some fs =>
        cases fs with
        | make deps =>
          rw [constructInstance_factoryMake n w e d deps hf]
          rw [descriptorDeps_make d deps hf] at hdeps
          exact ihci w e deps t hkeys hdeps
        | throwErr => rw [constructInstance_throw n w e d hf]; exact ⟨rfl, rfl⟩
    · intro w e deps t hkeys hdeps
      rw [createInstance_succ]
      have hbase := ihp w e deps t hkeys hdeps
      rcases hp : resolveParams n w e deps with ⟨w1, e1, r⟩
      rw [hp] at hbase
      cases r with
      | ok vs => exact hbase
      | error err => exact hbase
    · intro w e deps t hkeys hdeps
      cases deps with
      | nil => exact ⟨rfl, rfl⟩
      | cons u rest =>
        rw [resolveParams_cons]
        have hbase := ihg w e u t hkeys (hdeps u (List.mem_cons_self _ _))
        rcases hg : getService n w e u with ⟨w1, e1, r1⟩
        rw [hg] at hbase
        obtain ⟨hbS, hbC⟩ := hbase
        cases r1 with
        | error err => exact ⟨hbS, hbC⟩
        | ok vv =>
          dsimp only
          have hreg1 : w1.registry = w.registry := by
            have := getService_registry n w e u
            rw [hg] at this
            exact this
          have hrest := ihp w1 e1 rest t (by rw [hreg1]; exact hkeys)
            (by rw [hreg1]; exact fun u' hu' => hdeps u' (List.mem_cons_of_mem _ hu'))
          rcases hp : resolveParams n w1 e1 rest with ⟨w2, e2, r2⟩
          rw [hp] at hrest
          obtain ⟨hrS, hrC⟩ := hrest
          cases r2 with
          | ok vs => exact ⟨hrS.trans hbS, hrC.trans hbC⟩
          | error err => exact ⟨hrS.trans hbS, hrC.trans hbC⟩

/-- Unfolding equation for `resolveParams` on the empty dependency list. -/
theorem resolveParams_nil (n : Nat) (w : World) (e : Engine) :
    resolveParams (n + 1) w e [] = ⟨w, e, .ok []⟩ := rfl

instance (s : String) : Decidable (RecognizedLifetime s) :=
  inferInstanceAs (Decidable (s = "singleton" ∨ s = "scoped" ∨ s = "transient"))

instance (reg : List (ServiceId × ServiceDescriptor)) : Decidable (WellTypedRegistry reg) :=
  inferInstanceAs (Decidable (∀ p ∈ reg, RecognizedLifetime p.2.lifetime))

instance (reg : List (ServiceId × ServiceDescriptor)) : Decidable (KeyedRegistry reg) :=
  inferInstanceAs (Decidable (∀ p ∈ reg, p.2.serviceType = p.1))

instance (m : List (ServiceId × Instance)) (k : ServiceId) :
    Decidable (∃ v, getEntry m k = some v) :=
  decidable_of_iff ((getEntry m k).isSome = true) Option.isSome_iff_exists

instance (reg : List (ServiceId × ServiceDescriptor)) (e : Engine) :
    Decidable (AllSingletonsCached reg e) :=
  inferInstanceAs (Decidable (∀ p ∈ reg, p.2.lifetime = "singleton" →
    ∃ v, getEntry e.singletonInstances p.2.serviceType = some v))

/-! ### The claims -/

/-- C4: `getService` for an identifier absent from the registry fails with
the service-not-registered error carrying that identifier on any engine (a
freshly built root as well as any scope), leaving all state untouched; and
when the absence is discovered inside recursive constructor-dependency
resolution (here: a registered transient whose constructor requires the
missing identifier `u`), the same error propagates unchanged to the original
`getService` caller. -/
theorem C4_service_not_registered :
    (∀ n w e id, getEntry w.registry id = none →
      getService (n + 1) w e id = ⟨w, e, .error (.serviceNotRegistered id)⟩) ∧
    (∀ k w e t u d, getEntry w.registry t = some d → d.lifetime = "transient" →
      d.factory = none → d.implementationType = [u] → getEntry w.registry u = none →
      getService (k + 6) w e t = ⟨w, e, .error (.serviceNotRegistered u)⟩) := by
  constructor
  · intro n w e id h
    exact getService_not_registered n w e id h
  · intro k w e t u d hreg hl hf himpl hu
    rw [getService_registered (k + 5) w e t d hreg]
    rw [resolveService_transient (k + 4) w e d hl]
    rw [constructInstance_noFactory (k + 3) w e d hf]
    rw [himpl]
    rw [createInstance_succ (k + 2) w e [u]]
    rw [resolveParams_cons (k + 1) w e u []]
    rw [getService_not_registered k w e u hu]

/-- Witness for C4 at a concrete configuration: identifier `9` is not
registered; identifier `1` is a transient whose constructor requires the
unregistered identifier `9`. -/
theorem C4_service_not_registered_witness :
    getService 3 (addSingleton emptyWorld 1 []) ⟨[], []⟩ 9
      = ⟨addSingleton emptyWorld 1 [], ⟨[], []⟩, .error (.serviceNotRegistered 9)⟩ ∧
    getService 7 (addTransient emptyWorld 1 [9]) ⟨[], []⟩ 1
      = ⟨addTransient emptyWorld 1 [9], ⟨[], []⟩, .error (.serviceNotRegistered 9)⟩ :=
  ⟨C4_service_not_registered.1 2 (addSingleton emptyWorld 1 []) ⟨[], []⟩ 9 (by decide),
   C4_service_not_registered.2 1 (addTransient emptyWorld 1 [9]) ⟨[], []⟩ 1 9
     ⟨1, [9], "transient", none⟩ (by decide) rfl rfl rfl (by decide)⟩

/-- C6: `dispose()` clears exactly the engine's own scoped cache: the result
keeps the singleton cache untouched (and a fortiori touches neither the
registry, which `dispose` cannot even reach, nor any other engine, since
every engine owns disjoint cache state); it is idempotent; and a scoped
instance already cached in any other engine (e.g. a child scope after the
parent's `dispose()`) still resolves to the identical instance. -/
theorem C6_dispose_frame :
    (∀ p : Engine, dispose p = ⟨p.singletonInstances, []⟩) ∧
    (∀ p : Engine, dispose (dispose p) = dispose p) ∧
    (∀ (c : Engine) (n : Nat) (w : World) (id : ServiceId) (d : ServiceDescriptor)
        (v : Instance),
      getEntry w.registry id = some d → d.lifetime = "scoped" → d.serviceType = id →
      getEntry c.scopedInstances id = some v →
      getService (n + 2) w c id = ⟨w, c, .ok v⟩) := by
  refine ⟨fun p => rfl, fun p => rfl, ?_⟩
  intro c n w id d v hreg hl hk hc
  rw [getService_registered (n + 1) w c id d hreg]
  rw [resolveService_scoped_hit n w c d v hl (by rw [hk]; exact hc)]

/-- Witness for C6: a parent with a scoped entry, and a child whose cached
scoped instance `7` still resolves after the parent is disposed. -/
theorem C6_dispose_frame_witness :
    dispose ⟨[(1, 0)], [(2, 5)]⟩ = ⟨[(1, 0)], []⟩ ∧
    dispose (dispose ⟨[(1, 0)], [(2, 5)]⟩) = dispose ⟨[(1, 0)], [(2, 5)]⟩ ∧
    getService 3 (addScoped emptyWorld 2 []) ⟨[(1, 0)], [(2, 7)]⟩ 2
      = ⟨addScoped emptyWorld 2 [], ⟨[(1, 0)], [(2, 7)]⟩, .ok 7⟩ :=
  ⟨C6_dispose_frame.1 ⟨[(1, 0)], [(2, 5)]⟩,
   C6_dispose_frame.2.1 ⟨[(1, 0)], [(2, 5)]⟩,
   C6_dispose_frame.2.2 ⟨[(1, 0)], [(2, 7)]⟩ 1 (addScoped emptyWorld 2 []) 2
     ⟨2, [], "scoped", none⟩ 7 (by decide) rfl rfl (by decide)⟩

/-- C7 counterexample: the registry handed to the root engine by `build()` is
NOT frozen.  Concretely: build a provider from an empty collection; resolving
identifier `1` on it fails; after `addTransient(1, ...)` on the *collection*,
the very same already-built provider now resolves identifier `1`, so a
subsequent registration changed the set of descriptors the provider resolves
against. -/
theorem C7_registry_frozen_counterexample :
    build 5 emptyWorld = (emptyWorld, .ok ⟨[], []⟩) ∧
    (getService 5 emptyWorld ⟨[], []⟩ 1).out = .error (.serviceNotRegistered 1) ∧
    (getService 6 (addTransient emptyWorld 1 []) ⟨[], []⟩ 1).out = .ok 0 := by
  decide

/-- C7 (amended): `build()` hands the collection's live descriptor map to the
provider by reference, without freezing or copying it; registrations made on
the collection after `build()` are therefore visible to every already-built
provider.  For any identifier not yet registered, `getService` on a built
engine fails before the registration and succeeds (constructing an instance
via the new descriptor) immediately after `addTransient` on the collection,
with no operation performed on the engine in between. -/
theorem C7_registry_live_after_build (n g : Nat) (w : World) (e : Engine) (id : ServiceId)
    (hnew : getEntry w.registry id = none) :
    getService (n + 1) w e id = ⟨w, e, .error (.serviceNotRegistered id)⟩ ∧
    getService (g + 5) (addTransient w id []) e id
      = ⟨{ addTransient w id [] with counter := w.counter + 1 }, e, .ok w.counter⟩ := by
  constructor
  · exact getService_not_registered n w e id hnew
  · have hreg : getEntry (addTransient w id []).registry id
        = some ⟨id, [], "transient", none⟩ := getEntry_setEntry_self _ _ _
    rw [getService_registered (g + 4) (addTransient w id []) e id _ hreg]
    rw [resolveService_transient (g + 3) (addTransient w id []) e _ rfl]
    rw [constructInstance_noFactory (g + 2) (addTransient w id []) e _ rfl]
    rw [show (⟨id, [], "transient", none⟩ : ServiceDescriptor).implementationType = [] from rfl]
    rw [createInstance_succ (g + 1) (addTransient w id []) e []]
    rw [resolveParams_nil g (addTransient w id []) e]
    rfl

/-- Witness for the amended C7 at the concrete counterexample configuration. -/
theorem C7_registry_live_after_build_witness :
    getService 4 emptyWorld ⟨[], []⟩ 3 = ⟨emptyWorld, ⟨[], []⟩, .error (.serviceNotRegistered 3)⟩ ∧
    getService 9 (addTransient emptyWorld 3 []) ⟨[], []⟩ 3
      = ⟨{ addTransient emptyWorld 3 [] with counter := 1 }, ⟨[], []⟩, .ok 0⟩ :=
  C7_registry_live_after_build 3 4 emptyWorld ⟨[], []⟩ 3 (by decide)

/-- C9: a descriptor whose lifetime tag is none of the three recognized
values resolves to the unknown-lifetime error carrying that tag, with no
state change; and over a registry whose descriptors all carry recognized
tags, resolving any descriptor with a recognized tag never produces the
unknown-lifetime error (the defensive branch is unreachable). -/
theorem C9_unknown_lifetime :
    (∀ n w e d, d.lifetime ≠ "singleton" → d.lifetime ≠ "scoped" →
      d.lifetime ≠ "transient" →
      resolveService (n + 1) w e d = ⟨w, e, .error (.unknownLifetime d.lifetime)⟩) ∧
    (∀ fuel w e d, WellTypedRegistry w.registry → RecognizedLifetime d.lifetime →
      ∀ tag, (resolveService fuel w e d).out ≠ .error (.unknownLifetime tag)) :=
  ⟨resolveService_unknown,
   fun fuel w e d hwt hrec tag => (no_unknownLifetime fuel).2.1 w e d hwt hrec tag⟩

/-- Witness for C9: the malformed tag `"invalid"` (as in the repository's own
test) throws the unknown-lifetime error, while a singleton descriptor over a
well-typed registry never does. -/
theorem C9_unknown_lifetime_witness :
    resolveService 3 emptyWorld ⟨[], []⟩ ⟨7, [], "invalid", none⟩
      = ⟨emptyWorld, ⟨[], []⟩, .error (.unknownLifetime "invalid")⟩ ∧
    (resolveService 4 (addSingleton emptyWorld 1 []) ⟨[], []⟩
        ⟨1, [], "singleton", none⟩).out ≠ .error (.unknownLifetime "invalid") :=
  ⟨C9_unknown_lifetime.1 2 emptyWorld ⟨[], []⟩ ⟨7, [], "invalid", none⟩
     (by decide) (by decide) (by decide),
   C9_unknown_lifetime.2 4 (addSingleton emptyWorld 1 []) ⟨[], []⟩
     ⟨1, [], "singleton", none⟩ (by decide) (Or.inl rfl) "invalid"⟩

/-- C1: once a singleton has been resolved (result `v`), every further
`getService` on the same engine returns the reference-identical instance `v`;
and any scope created afterwards starts from a value copy of the engine's
current singleton cache — so it holds the same entry `v` — and its
`getService` returns that same instance. -/
theorem C1_singleton_identity (n : Nat) (w : World) (e : Engine) (id : ServiceId)
    (d : ServiceDescriptor) (v : Instance) (w1 : World) (e1 : Engine)
    (hreg : getEntry w.registry id = some d) (hl : d.lifetime = "singleton")
    (hk : d.serviceType = id)
    (h1 : getService n w e id = ⟨w1, e1, .ok v⟩) :
    (∀ m, getService (m + 2) w1 e1 id = ⟨w1, e1, .ok v⟩) ∧
    (∀ f w2 c, createScope f w1 e1 = (w2, .ok c) →
      getEntry c.singletonInstances id = some v ∧
      ∀ m, getService (m + 2) w2 c id = ⟨w2, c, .ok v⟩) := by
  have hw1reg : w1.registry = w.registry := by
    have := getService_registry n w e id
    rw [h1] at this
    exact this
  have hentry : getEntry e1.singletonInstances d.serviceType = some v := by
    cases n with
    | zero => exact absurd h1 (by simp [getService])
    | succ nn =>
      rw [getService_registered nn w e id d hreg] at h1
      exact resolveService_singleton_ok_entry' nn w e d ⟨w1, e1, .ok v⟩ h1 hl v rfl
  constructor
  · intro m
    rw [getService_registered (m + 1) w1 e1 id d (by rw [hw1reg]; exact hreg)]
    rw [resolveService_singleton_hit m w1 e1 d v hl hentry]
  · intro f w2 c hscope
    simp only [createScope] at hscope
    have hcentry : getEntry c.singletonInstances id = some v :=
      mkProvider_singleton_entry_preserved f w1 (some e1) w2 c id v hscope
        (by show getEntry e1.singletonInstances id = some v; rw [← hk]; exact hentry)
    have hw2reg : w2.registry = w1.registry := by
      have := mkProvider_registry_inv f w1 (some e1)
      rw [hscope] at this
      exact this
    refine ⟨hcentry, ?_⟩
    intro m
    rw [getService_registered (m + 1) w2 c id d (by rw [hw2reg, hw1reg]; exact hreg)]
    rw [resolveService_singleton_hit m w2 c d v hl (by rw [hk]; exact hcentry)]

/-- Witness for C1: identifier `1`, a singleton already resolved to instance
`0` on the built root; repeated resolution and resolution on a freshly
created scope both return `0`. -/
theorem C1_singleton_identity_witness :
    getService 4 ⟨[(1, ⟨1, [], "singleton", none⟩)], 1⟩ ⟨[(1, 0)], []⟩ 1
      = ⟨⟨[(1, ⟨1, [], "singleton", none⟩)], 1⟩, ⟨[(1, 0)], []⟩, .ok 0⟩ ∧
    getEntry (Engine.singletonInstances ⟨[(1, 0)], []⟩) 1 = some 0 ∧
    getService 5 ⟨[(1, ⟨1, [], "singleton", none⟩)], 1⟩ ⟨[(1, 0)], []⟩ 1
      = ⟨⟨[(1, ⟨1, [], "singleton", none⟩)], 1⟩, ⟨[(1, 0)], []⟩, .ok 0⟩ := by
  have h1 : getService 2 ⟨[(1, ⟨1, [], "singleton", none⟩)], 1⟩ ⟨[(1, 0)], []⟩ 1
      = ⟨⟨[(1, ⟨1, [], "singleton", none⟩)], 1⟩, ⟨[(1, 0)], []⟩, .ok 0⟩ := by decide
  have hsc : createScope 3 ⟨[(1, ⟨1, [], "singleton", none⟩)], 1⟩ ⟨[(1, 0)], []⟩
      = (⟨[(1, ⟨1, [], "singleton", none⟩)], 1⟩, .ok ⟨[(1, 0)], []⟩) := by decide
  have main := C1_singleton_identity 2 ⟨[(1, ⟨1, [], "singleton", none⟩)], 1⟩ ⟨[(1, 0)], []⟩ 1
    ⟨1, [], "singleton", none⟩ 0 ⟨[(1, ⟨1, [], "singleton", none⟩)], 1⟩ ⟨[(1, 0)], []⟩
    (by decide) rfl rfl h1
  exact ⟨main.1 2, (main.2 3 _ _ hsc).1, (main.2 3 _ _ hsc).2 3⟩

/-- C5: if provider construction (`build()` at the root, `createScope()` for
a child) returns successfully, then the pre-resolution loop has given every
singleton descriptor of the registry an entry in the new engine's singleton
cache, and a later `getService` for any singleton identifier is a pure cache
hit that cannot fail; contrapositively, a singleton whose construction
throws makes `mkProvider` — i.e. `build()`/`createScope()` itself — return
that error instead of an engine. -/
theorem C5_eager_singletons (fuel : Nat) (w : World) (parent : Option Engine)
    (w' : World) (e' : Engine) (h : mkProvider fuel w parent = (w', .ok e')) :
    AllSingletonsCached w.registry e' ∧
    (∀ id d, getEntry w.registry id = some d → d.lifetime = "singleton" →
      d.serviceType = id →
      ∃ v, getEntry e'.singletonInstances id = some v ∧
        ∀ n, getService (n + 2) w' e' id = ⟨w', e', .ok v⟩) := by
  have hall := mkProvider_ok_all_singletons_cached fuel w parent w' e' h
  have hwreg : w'.registry = w.registry := by
    have := mkProvider_registry_inv fuel w parent
    rw [h] at this
    exact this
  refine ⟨hall, ?_⟩
  intro id d hreg hl hk
  obtain ⟨v, hv⟩ := hall (id, d) (getEntry_mem _ _ _ hreg) hl
  rw [hk] at hv
  refine ⟨v, hv, ?_⟩
  intro m
  rw [getService_registered (m + 1) w' e' id d (by rw [hwreg]; exact hreg)]
  rw [resolveService_singleton_hit m w' e' d v hl (by rw [hk]; exact hv)]

/-- Witness for C5: building over a registry with singleton `1` eagerly
caches instance `0` for it, and a later `getService` is a hit. -/
theorem C5_eager_singletons_witness :
    AllSingletonsCached [(1, ⟨1, [], "singleton", none⟩)] ⟨[(1, 0)], []⟩ ∧
    getService 4 ⟨[(1, ⟨1, [], "singleton", none⟩)], 1⟩ ⟨[(1, 0)], []⟩ 1
      = ⟨⟨[(1, ⟨1, [], "singleton", none⟩)], 1⟩, ⟨[(1, 0)], []⟩, .ok 0⟩ := by
  have h : mkProvider 5 (addSingleton emptyWorld 1 []) none
      = (⟨[(1, ⟨1, [], "singleton", none⟩)], 1⟩, .ok ⟨[(1, 0)], []⟩) := by decide
  have main := C5_eager_singletons 5 (addSingleton emptyWorld 1 []) none _ _ h
  refine ⟨main.1, ?_⟩
  obtain ⟨v, hv, hs⟩ := main.2 1 ⟨1, [], "singleton", none⟩ (by decide) rfl rfl
  have hv0 : v = 0 := by
    simp [getEntry] at hv
    exact hv.symm
  subst hv0
  exact hs 2

/-- C2: over a registry whose singletons are all materialized in the parent
`p`, `createScope()` returns an engine with a value copy of `p`'s singleton
cache and an *empty* scoped cache — regardless of what `p`'s own scoped
cache holds, so a scoped cache is never inherited (first two conjuncts, for
both scope creations); resolving a scoped identifier twice in the first
scope returns the identical instance (third conjunct); and the instances
obtained by the two sibling scopes are distinct (fourth conjunct). -/
theorem C2_scoped_isolation (w : World) (p : Engine) (id : ServiceId) (d : ServiceDescriptor)
    (hreg : getEntry w.registry id = some d) (hl : d.lifetime = "scoped")
    (hf : d.factory = none)
    (hall : AllSingletonsCached w.registry p)
    (g1 g2 : Nat) (w3 w4 : World) (s1' s2' : Engine) (v1 v2 : Instance)
    (ha : getService g1 w ⟨p.singletonInstances, []⟩ id = ⟨w3, s1', .ok v1⟩)
    (hb : getService g2 w3 ⟨p.singletonInstances, []⟩ id = ⟨w4, s2', .ok v2⟩) :
    (∀ f, createScope (f + 1) w p = (w, .ok ⟨p.singletonInstances, []⟩)) ∧
    (∀ f, createScope (f + 1) w3 p = (w3, .ok ⟨p.singletonInstances, []⟩)) ∧
    (∀ m, getService (m + 2) w3 s1' id = ⟨w3, s1', .ok v1⟩) ∧
    v1 ≠ v2 := by
  have hw3reg : w3.registry = w.registry := by
    have := getService_registry g1 w ⟨p.singletonInstances, []⟩ id
    rw [ha] at this
    exact this
  refine ⟨?_, ?_, ?_, ?_⟩
  · intro f
    exact mkProvider_allCached f w p hall
  · intro f
    exact mkProvider_allCached f w3 p (by rw [hw3reg]; exact hall)
  · intro m
    have hentry : getEntry s1'.scopedInstances d.serviceType = some v1 := by
      cases g1 with
      | zero => exact absurd ha (by simp [getService])
      | succ nn =>
        rw [getService_registered nn w ⟨p.singletonInstances, []⟩ id d hreg] at ha
        exact resolveService_scoped_ok_entry' nn w ⟨p.singletonInstances, []⟩ d
          ⟨w3, s1', .ok v1⟩ ha hl v1 rfl
    rw [getService_registered (m + 1) w3 s1' id d (by rw [hw3reg]; exact hreg)]
    rw [resolveService_scoped_hit m w3 s1' d v1 hl hentry]
  · have hfresh1 := getService_scoped_miss_ok_fresh g1 w ⟨p.singletonInstances, []⟩ id d
      w3 s1' v1 hreg hl rfl hf ha
    have hfresh2 := getService_scoped_miss_ok_fresh g2 w3 ⟨p.singletonInstances, []⟩ id d
      w4 s2' v2 (by rw [hw3reg]; exact hreg) hl rfl hf hb
    exact Nat.ne_of_lt (lt_of_lt_of_le hfresh1.2 hfresh2.1)

/-- Witness for C2: scoped identifier `2`; the parent has a nonempty scoped
cache which is not inherited; the two scopes resolve `2` to the distinct
instances `0` and `1`. -/
theorem C2_scoped_isolation_witness :
    createScope 4 ⟨[(2, ⟨2, [], "scoped", none⟩)], 0⟩ ⟨[], [(9, 9)]⟩
      = (⟨[(2, ⟨2, [], "scoped", none⟩)], 0⟩, .ok ⟨[], []⟩) ∧
    getService 4 ⟨[(2, ⟨2, [], "scoped", none⟩)], 1⟩ ⟨[], [(2, 0)]⟩ 2
      = ⟨⟨[(2, ⟨2, [], "scoped", none⟩)], 1⟩, ⟨[], [(2, 0)]⟩, .ok 0⟩ ∧
    (0 : Instance) ≠ (1 : Instance) := by
  have ha : getService 5 ⟨[(2, ⟨2, [], "scoped", none⟩)], 0⟩ ⟨[], []⟩ 2
      = ⟨⟨[(2, ⟨2, [], "scoped", none⟩)], 1⟩, ⟨[], [(2, 0)]⟩, .ok 0⟩ := by decide
  have hb : getService 5 ⟨[(2, ⟨2, [], "scoped", none⟩)], 1⟩ ⟨[], []⟩ 2
      = ⟨⟨[(2, ⟨2, [], "scoped", none⟩)], 2⟩, ⟨[], [(2, 1)]⟩, .ok 1⟩ := by decide
  have main := C2_scoped_isolation ⟨[(2, ⟨2, [], "scoped", none⟩)], 0⟩ ⟨[], [(9, 9)]⟩ 2
    ⟨2, [], "scoped", none⟩ (by decide) rfl rfl (by decide) 5 5
    ⟨[(2, ⟨2, [], "scoped", none⟩)], 1⟩ ⟨[(2, ⟨2, [], "scoped", none⟩)], 2⟩
    ⟨[], [(2, 0)]⟩ ⟨[], [(2, 1)]⟩ 0 1 ha hb
  exact ⟨main.1 3, main.2.2.1 2, main.2.2.2⟩

/-- C3: the transient dispatch branch (source lines 166–167) neither consults
nor fills any cache: for *every* engine state it is exactly the construction
step (first conjunct); two successive resolutions of a transient identifier
return distinct, freshly allocated instances — in particular within one and
the same scope (second conjunct); and for a dependency-free transient the
whole call returns a fresh instance while leaving the engine — both caches —
exactly unchanged, whatever they contained (third conjunct). -/
theorem C3_transient_fresh (w : World) (id : ServiceId) (d : ServiceDescriptor)
    (hreg : getEntry w.registry id = some d) (hl : d.lifetime = "transient")
    (hf : d.factory = none) :
    (∀ n (w0 : World) (e0 : Engine), resolveService (n + 1) w0 e0 d = constructInstance n w0 e0 d) ∧
    (∀ e f1 f2 w1 e1 v1 w2 e2 v2,
      getService f1 w e id = ⟨w1, e1, .ok v1⟩ →
      getService f2 w1 e1 id = ⟨w2, e2, .ok v2⟩ → v1 ≠ v2) ∧
    (d.implementationType = [] →
      ∀ g (w0 : World) (e0 : Engine), getEntry w0.registry id = some d →
        getService (g + 5) w0 e0 id
          = ⟨{ w0 with counter := w0.counter + 1 }, e0, .ok w0.counter⟩) := by
  refine ⟨?_, ?_, ?_⟩
  · intro n w0 e0
    exact resolveService_transient n w0 e0 d hl
  · intro e f1 f2 w1 e1 v1 w2 e2 v2 h1 h2
    have hw1reg : w1.registry = w.registry := by
      have := getService_registry f1 w e id
      rw [h1] at this
      exact this
    have hfr1 := getService_transient_ok_fresh f1 w e id d w1 e1 v1 hreg hl hf h1
    have hfr2 := getService_transient_ok_fresh f2 w1 e1 id d w2 e2 v2
      (by rw [hw1reg]; exact hreg) hl hf h2
    exact Nat.ne_of_lt (lt_of_lt_of_le hfr1.2 hfr2.1)
  · intro himpl g w0 e0 hreg0
    rw [getService_registered (g + 4) w0 e0 id d hreg0]
    rw [resolveService_transient (g + 3) w0 e0 d hl]
    rw [constructInstance_noFactory (g + 2) w0 e0 d hf]
    rw [himpl]
    rw [createInstance_succ (g + 1) w0 e0 []]
    rw [resolveParams_nil g w0 e0]

/-- Witness for C3: transient identifier `3`; two calls on the same engine
return `0` then `1`; the dependency-free call leaves the engine's caches
untouched. -/
theorem C3_transient_fresh_witness :
    resolveService 4 ⟨[(3, ⟨3, [], "transient", none⟩)], 0⟩ ⟨[(7, 7)], [(8, 8)]⟩
        ⟨3, [], "transient", none⟩
      = constructInstance 3 ⟨[(3, ⟨3, [], "transient", none⟩)], 0⟩ ⟨[(7, 7)], [(8, 8)]⟩
          ⟨3, [], "transient", none⟩ ∧
    (0 : Instance) ≠ (1 : Instance) ∧
    getService 7 ⟨[(3, ⟨3, [], "transient", none⟩)], 0⟩ ⟨[(7, 7)], [(8, 8)]⟩ 3
      = ⟨⟨[(3, ⟨3, [], "transient", none⟩)], 1⟩, ⟨[(7, 7)], [(8, 8)]⟩, .ok 0⟩ := by
  have main := C3_transient_fresh ⟨[(3, ⟨3, [], "transient", none⟩)], 0⟩ 3
    ⟨3, [], "transient", none⟩ (by decide) rfl rfl
  refine ⟨main.1 3 _ _, ?_, ?_⟩
  · exact main.2.1 ⟨[], []⟩ 5 5 ⟨[(3, ⟨3, [], "transient", none⟩)], 1⟩ ⟨[], []⟩ 0
      ⟨[(3, ⟨3, [], "transient", none⟩)], 2⟩ ⟨[], []⟩ 1 (by decide) (by decide)
  · have := main.2.2 rfl 2 ⟨[(3, ⟨3, [], "transient", none⟩)], 0⟩ ⟨[(7, 7)], [(8, 8)]⟩
      (by decide)
    exact this

/-- C10: a scoped identifier resolves directly on any engine — the root
included, no scope ever created — landing in that engine's own scoped cache;
repeated `getService` calls return the identical instance; and once
`dispose()` has cleared the cache, a successful re-resolution returns a
distinct new instance. -/
theorem C10_scoped_on_root (fuel : Nat) (w : World) (e : Engine) (id : ServiceId)
    (d : ServiceDescriptor) (w1 : World) (e1 : Engine) (v : Instance)
    (hreg : getEntry w.registry id = some d) (hl : d.lifetime = "scoped")
    (hk : d.serviceType = id) (hf : d.factory = none)
    (hmiss : getEntry e.scopedInstances id = none)
    (h : getService fuel w e id = ⟨w1, e1, .ok v⟩) :
    getEntry e1.scopedInstances id = some v ∧
    (∀ n, getService (n + 2) w1 e1 id = ⟨w1, e1, .ok v⟩) ∧
    (∀ g w2 e2 v2, getService g w1 (dispose e1) id = ⟨w2, e2, .ok v2⟩ → v2 ≠ v) := by
  have hw1reg : w1.registry = w.registry := by
    have := getService_registry fuel w e id
    rw [h] at this
    exact this
  have hentry : getEntry e1.scopedInstances d.serviceType = some v := by
    cases fuel with
    | zero => exact absurd h (by simp [getService])
    | succ nn =>
      rw [getService_registered nn w e id d hreg] at h
      exact resolveService_scoped_ok_entry' nn w e d ⟨w1, e1, .ok v⟩ h hl v rfl
  refine ⟨by rw [← hk]; exact hentry, ?_, ?_⟩
  · intro n
    rw [getService_registered (n + 1) w1 e1 id d (by rw [hw1reg]; exact hreg)]
    rw [resolveService_scoped_hit n w1 e1 d v hl hentry]
  · intro g w2 e2 v2 h2
    have hfr1 := getService_scoped_miss_ok_fresh fuel w e id d w1 e1 v hreg hl
      (by rw [hk]; exact hmiss) hf h
    have hfr2 := getService_scoped_miss_ok_fresh g w1 (dispose e1) id d w2 e2 v2
      (by rw [hw1reg]; exact hreg) hl rfl hf h2
    exact Nat.ne_of_gt (lt_of_lt_of_le hfr1.2 hfr2.1)

/-- Witness for C10: scoped identifier `2` resolved on the root engine to
instance `0`, cached there, and re-resolved to the distinct instance `1`
after `dispose()`. -/
theorem C10_scoped_on_root_witness :
    getEntry (Engine.scopedInstances ⟨[], [(2, 0)]⟩) 2 = some 0 ∧
    getService 4 ⟨[(2, ⟨2, [], "scoped", none⟩)], 1⟩ ⟨[], [(2, 0)]⟩ 2
      = ⟨⟨[(2, ⟨2, [], "scoped", none⟩)], 1⟩, ⟨[], [(2, 0)]⟩, .ok 0⟩ ∧
    (1 : Instance) ≠ (0 : Instance) := by
  have h : getService 5 ⟨[(2, ⟨2, [], "scoped", none⟩)], 0⟩ ⟨[], []⟩ 2
      = ⟨⟨[(2, ⟨2, [], "scoped", none⟩)], 1⟩, ⟨[], [(2, 0)]⟩, .ok 0⟩ := by decide
  have main := C10_scoped_on_root 5 ⟨[(2, ⟨2, [], "scoped", none⟩)], 0⟩ ⟨[], []⟩ 2
    ⟨2, [], "scoped", none⟩ ⟨[(2, ⟨2, [], "scoped", none⟩)], 1⟩ ⟨[], [(2, 0)]⟩ 0
    (by decide) rfl rfl rfl rfl h
  refine ⟨main.1, main.2.1 2, ?_⟩
  exact main.2.2 5 ⟨[(2, ⟨2, [], "scoped", none⟩)], 2⟩ ⟨[], [(2, 1)]⟩ 1 (by decide)

/-- C8: construction failure is atomic for the failing identifier.  If
resolving a descriptor throws — whatever the error: a missing dependency, a
throwing factory, a malformed lifetime, or exhausted recursion — then the
failing engine state holds exactly the same singleton-cache and scoped-cache
entries for that identifier as before the call, so a subsequent `getService`
for it re-attempts construction from scratch.  (The registry must store
descriptors under their own identifiers, as the builder guarantees, and the
identifier must not require itself through a dependency cycle — a case the
reference design explicitly leaves unhandled.) -/
theorem C8_construction_failure_atomic (fuel : Nat) (w : World) (e : Engine)
    (d : ServiceDescriptor) (w' : World) (e' : Engine) (err : DIError)
    (hkeys : KeyedRegistry w.registry)
    (hnc : ∀ u ∈ descriptorDeps d, ¬ Reaches w.registry u d.serviceType)
    (h : resolveService fuel w e d = ⟨w', e', .error err⟩) :
    getEntry e'.singletonInstances d.serviceType = getEntry e.singletonInstances d.serviceType ∧
    getEntry e'.scopedInstances d.serviceType = getEntry e.scopedInstances d.serviceType := by
  cases fuel with
  | zero =>
    simp only [resolveService, Res.mk.injEq] at h
    obtain ⟨_, he, _⟩ := h
    rw [← he]
    exact ⟨rfl, rfl⟩
  | succ n =>
    by_cases h1 : d.lifetime = "singleton"
    · cases hc : getEntry e.singletonInstances d.serviceType with
      | some u =>
        rw [resolveService_singleton_hit n w e d u h1 hc] at h
        simp at h
      | none =>
        rw [resolveService_singleton_miss n w e d h1 hc] at h
        have hframe := (frame_unreached n).2.2.1 w e d d.serviceType hkeys hnc
        rcases hci : constructInstance n w e d with ⟨w1, e1, rr⟩
        rw [hci] at h hframe
        cases rr with
        | ok inst => simp at h
        | error err2 =>
          simp only [Res.mk.injEq] at h
          obtain ⟨_, he, _⟩ := h
          rw [← he]
          dsimp only at hframe
          exact ⟨hframe.1.trans hc, hframe.2⟩
    · by_cases h2 : d.lifetime = "scoped"
      · cases hc : getEntry e.scopedInstances d.serviceType with
        | some u =>
          rw [resolveService_scoped_hit n w e d u h2 hc] at h
          simp at h
        | none =>
          rw [resolveService_scoped_miss n w e d h2 hc] at h
          have hframe := (frame_unreached n).2.2.1 w e d d.serviceType hkeys hnc
          rcases hci : constructInstance n w e d with ⟨w1, e1, rr⟩
          rw [hci] at h hframe
          cases rr with
          | ok inst => simp at h
          | error err2 =>
            simp only [Res.mk.injEq] at h
            obtain ⟨_, he, _⟩ := h
            rw [← he]
            dsimp only at hframe
            exact ⟨hframe.1, hframe.2.trans hc⟩
      · by_cases h3 : d.lifetime = "transient"
        · rw [resolveService_transient n w e d h3] at h
          have hframe := (frame_unreached n).2.2.1 w e d d.serviceType hkeys hnc
          rw [h] at hframe
          exact hframe
        · rw [resolveService_unknown n w e d h1 h2 h3] at h
          simp only [Res.mk.injEq] at h
          obtain ⟨_, he, _⟩ := h
          rw [← he]
          exact ⟨rfl, rfl⟩

/-- Witness for C8: singleton `1` requires the scoped `5` and the
unregistered `99`; its resolution fails with service-not-registered `99`
after the scoped dependency `5` was constructed and cached, yet the caches
still hold no entry for identifier `1` itself. -/
theorem C8_construction_failure_atomic_witness :
    resolveService 9
        ⟨[(1, ⟨1, [5, 99], "singleton", none⟩), (5, ⟨5, [], "scoped", none⟩)], 0⟩
        ⟨[], []⟩ ⟨1, [5, 99], "singleton", none⟩
      = ⟨⟨[(1, ⟨1, [5, 99], "singleton", none⟩), (5, ⟨5, [], "scoped", none⟩)], 1⟩,
          ⟨[], [(5, 0)]⟩, .error (.serviceNotRegistered 99)⟩ ∧
    getEntry (Engine.singletonInstances ⟨[], [(5, 0)]⟩) 1
      = getEntry (Engine.singletonInstances ⟨[], []⟩) 1 ∧
    getEntry (Engine.scopedInstances ⟨[], [(5, 0)]⟩) 1
      = getEntry (Engine.scopedInstances ⟨[], []⟩) 1 := by
  have h : resolveService 9
      ⟨[(1, ⟨1, [5, 99], "singleton", none⟩), (5, ⟨5, [], "scoped", none⟩)], 0⟩
      ⟨[], []⟩ ⟨1, [5, 99], "singleton", none⟩
      = ⟨⟨[(1, ⟨1, [5, 99], "singleton", none⟩), (5, ⟨5, [], "scoped", none⟩)], 1⟩,
          ⟨[], [(5, 0)]⟩, .error (.serviceNotRegistered 99)⟩ := by decide
  have hnc : ∀ u ∈ descriptorDeps (⟨1, [5, 99], "singleton", none⟩ : ServiceDescriptor),
      ¬ Reaches [(1, ⟨1, [5, 99], "singleton", none⟩), (5, ⟨5, [], "scoped", none⟩)] u 1 := by
    intro u hu hr
    have hu' : u = 5 ∨ u = 99 := by
      simpa [descriptorDeps] using hu
    rcases hu' with hu5 | hu99
    · subst hu5
      cases hr with
      | step a b c dd hd hb hr2 =>
        have hdd : dd = ⟨5, [], "scoped", none⟩ := by
          simp [getEntry] at hd
          exact hd.symm
        subst hdd
        simp [descriptorDeps] at hb
    · subst hu99
      cases hr with
      | step a b c dd hd hb hr2 =>
        simp [getEntry] at hd
  have main := C8_construction_failure_atomic 9
    ⟨[(1, ⟨1, [5, 99], "singleton", none⟩), (5, ⟨5, [], "scoped", none⟩)], 0⟩
    ⟨[], []⟩ ⟨1, [5, 99], "singleton", none⟩
    ⟨[(1, ⟨1, [5, 99], "singleton", none⟩), (5, ⟨5, [], "scoped", none⟩)], 1⟩
    ⟨[], [(5, 0)]⟩ (.serviceNotRegistered 99) (by decide) hnc h
  exact ⟨h, main.1, main.2⟩
end Netdi
